import Mathlib

/-!
Verification of the GridNavigationEnv environment
(src/gym_safety/envs/gridnavigation.py).

The Python module is shallowly embedded below.  Machine integers are
modelled as ℕ/ℤ, numpy floats as ℚ, the numpy random sources as explicit
streams of draws, and code that can raise exceptions returns Except.
The module uses two distinct random sources: the seeded instance source
self.np_random (used by grid generation), and the process-global np.random
(used by step's stochastic override); both are modelled by the same RNG
type and threaded explicitly.
-/

namespace GymSafety

/-- A numpy random source, modelled as a stream of pairs of naturals with a
cursor.  Each call consumes one pair: randint uses the first component
modulo the range size, and a Bernoulli trial turns the pair (a, b) into the
uniform draw a / (a + b + 1) ∈ [0, 1). -/
structure RNG where
  stream : ℕ → ℕ × ℕ
  idx : ℕ

/-- Exceptions the embedded Python code can raise. -/
inductive PyError where
  | valueError
  | keyError
  | indexError
deriving DecidableEq, Repr

/-- The uniform draw in [0,1) encoded by one stream element. -/
def unitOf (p : ℕ × ℕ) : ℚ := mkRat p.1 (p.1 + p.2 + 1)

/-- numpy randint(lo, hi): uniform integer in [lo, hi); raises ValueError
when the range is empty.  Consumes one draw. -/
def randint (lo hi : ℕ) (r : RNG) : Except PyError (ℕ × RNG) :=
  if hi ≤ lo then Except.error PyError.valueError
  else Except.ok (lo + (r.stream r.idx).1 % (hi - lo), ⟨r.stream, r.idx + 1⟩)

/-- numpy binomial(1, p): a Bernoulli trial.  Validates p ∈ [0,1] (raising
ValueError otherwise, without consuming a draw), then consumes one uniform
draw u and returns 1 iff u < p. -/
def binomial1 (p : ℚ) (r : RNG) : Except PyError (ℕ × RNG) :=
  if p < 0 ∨ 1 < p then Except.error PyError.valueError
  else Except.ok (if unitOf (r.stream r.idx) < p then 1 else 0, ⟨r.stream, r.idx + 1⟩)

/-- One row of `gridsize` cells of the loop body in build_asci_art: each
cell is an independent Bernoulli(rho) trial on self.np_random, becoming
an obstacle on 1. -/
def buildRow (rho : ℚ) : ℕ → RNG → Except PyError (List Char × RNG)
  | 0, r => Except.ok ([], r)
  | Nat.succ k, r =>
      match binomial1 rho r with
      | Except.error e => Except.error e
      | Except.ok (b, r1) =>
          match buildRow rho k r1 with
          | Except.error e => Except.error e
          | Except.ok (rest, r2) => Except.ok ((if b = 0 then ' ' else '#') :: rest, r2)

/-- The middle rows 1 .. gridsize-2 of build_asci_art. -/
def buildRows (rho : ℚ) (width : ℕ) : ℕ → RNG → Except PyError (List (List Char) × RNG)
  | 0, r => Except.ok ([], r)
  | Nat.succ k, r =>
      match buildRow rho width r with
      | Except.error e => Except.error e
      | Except.ok (row, r1) =>
          match buildRows rho width k r1 with
          | Except.error e => Except.error e
          | Except.ok (rest, r2) => Except.ok (row :: rest, r2)

/-- GridNavigationEnv.build_asci_art: row 0 is empty except a goal 'G' at
a random column; the gridsize-2 middle rows carry Bernoulli(rho) obstacles;
the last row is empty except the start marker 'P' in the last column.
Returns the flat character array (the source flattens the row strings). -/
def build_asci_art (gridsize : ℕ) (rho : ℚ) (r : RNG) : Except PyError (List Char × RNG) :=
  match randint 0 gridsize r with
  | Except.error e => Except.error e
  | Except.ok (alpha, r1) =>
      let first_row := (List.replicate gridsize ' ').set alpha 'G'
      let last_row := (List.replicate gridsize ' ').set (gridsize - 1) 'P'
      match buildRows rho gridsize (gridsize - 2) r1 with
      | Except.error e => Except.error e
      | Except.ok (mid, r2) => Except.ok (((first_row :: mid) ++ [last_row]).flatten, r2)

/-- numpy reshape of the flat array to (n, n); ValueError when the number
of elements does not match. -/
def reshape2 (flat : List Char) (n : ℕ) : Except PyError (List (List Char)) :=
  if flat.length = n * n then
    Except.ok ((List.range n).map (fun i => (flat.drop (i * n)).take n))
  else Except.error PyError.valueError

/-- Column scan of one row for np.argwhere (row index i, first column j). -/
def argwhereRow (i : ℕ) (c : Char) : ℕ → List Char → List (ℤ × ℤ)
  | _, [] => []
  | j, ch :: rest =>
      if ch = c then ((i : ℤ), (j : ℤ)) :: argwhereRow i c (j + 1) rest
      else argwhereRow i c (j + 1) rest

/-- Row scan for np.argwhere starting at row index i. -/
def argwhereFrom (c : Char) : ℕ → List (List Char) → List (ℤ × ℤ)
  | _, [] => []
  | i, row :: rest => argwhereRow i c 0 row ++ argwhereFrom c (i + 1) rest

/-- np.argwhere(art == c): the row-major list of coordinates whose cell is c. -/
def argwhere (art : List (List Char)) (c : Char) : List (ℤ × ℤ) :=
  argwhereFrom c 0 art

/-- The FG_COLORS table: Empty→black, Goal→green, Player→red, Obstacle→blue. -/
def FG_COLORS (c : Char) : ℚ × ℚ × ℚ :=
  if c = 'G' then (0, 1, 0)
  else if c = 'P' then (1, 0, 0)
  else if c = '#' then (0, 0, 1)
  else (0, 0, 0)

/-- GridNavigationEnv.get_art_img: the static grid image without the
player; the start marker 'P' in the art is drawn as empty background. -/
def get_art_img (art : List (List Char)) : List (List (ℚ × ℚ × ℚ)) :=
  art.map (fun row => row.map (fun ch => if ch = 'P' then FG_COLORS ' ' else FG_COLORS ch))

/-- The mutable state of a configured GridNavigationEnv instance.
np_random is the seeded instance source (self.np_random); the global
np.random used by step is threaded separately. -/
structure Env where
  gridsize : ℕ
  rho : ℚ
  stochasticity : ℚ
  img_observation : Bool
  art : List (List Char)
  start_state : ℤ × ℤ
  goal_state : ℤ × ℤ
  state : ℤ × ℤ
  obstacle_states : List (ℤ × ℤ)
  art_img : List (List (ℚ × ℚ × ℚ))
  np_random : RNG

/-- GridNavigationEnv.make_game: builds the grid with self.np_random,
reshapes it, locates the goal (argwhere[0], IndexError on an empty match),
caches obstacle positions and the static image, and puts the agent at the
bottom-right start state.  Performs no validation of its parameters. -/
def make_game (npr : RNG) (gridsize : ℕ) (rho stochasticity : ℚ)
    (img_observation : Bool) : Except PyError Env :=
  match build_asci_art gridsize rho npr with
  | Except.error e => Except.error e
  | Except.ok (flat, r1) =>
      match reshape2 flat gridsize with
      | Except.error e => Except.error e
      | Except.ok art =>
          match argwhere art 'G' with
          | [] => Except.error PyError.indexError
          | goal :: _ =>
              Except.ok {
                gridsize := gridsize
                rho := rho
                stochasticity := stochasticity
                img_observation := img_observation
                art := art
                start_state := ((gridsize : ℤ) - 1, (gridsize : ℤ) - 1)
                goal_state := goal
                state := ((gridsize : ℤ) - 1, (gridsize : ℤ) - 1)
                obstacle_states := argwhere art '#'
                art_img := get_art_img art
                np_random := r1 }

/-- GridNavigationEnv.state_to_oh: a zero vector of length gridsize²
with a 1 written at index row*gridsize+col of the current position. -/
def state_to_oh (env : Env) : List ℚ :=
  (List.replicate (env.gridsize * env.gridsize) 0).set
    (env.state.1.toNat * env.gridsize + env.state.2.toNat) 1

/-- Write one pixel of a 2D image. -/
def set2 (m : List (List (ℚ × ℚ × ℚ))) (i j : ℕ) (v : ℚ × ℚ × ℚ) :
    List (List (ℚ × ℚ × ℚ)) :=
  m.set i ((m.getD i []).set j v)

/-- GridNavigationEnv.state_to_img: a copy of the cached static image with
the current position's pixel overwritten by the player color. -/
def state_to_img (env : Env) : List (List (ℚ × ℚ × ℚ)) :=
  set2 env.art_img env.state.1.toNat env.state.2.toNat (FG_COLORS 'P')

/-- The observation returned by step/reset: either the one-hot vector or
the image, depending on the configured mode. -/
inductive Obs where
  | oh : List ℚ → Obs
  | img : List (List (ℚ × ℚ × ℚ)) → Obs
deriving DecidableEq, Repr

/-- The ACTIONS table of GridNavigationEnv: the (row, col) delta for each
action key; a missing key is a Python KeyError. -/
def ACTIONS (a : ℕ) : Option (ℤ × ℤ) :=
  if a = 0 then some (-1, 0)
  else if a = 1 then some (0, -1)
  else if a = 2 then some (1, 0)
  else if a = 3 then some (0, 1)
  else none

/-- The pure tail of GridNavigationEnv.step once the effective action's
delta is known: move unless the candidate leaves the grid, then compute
reward, done, the constraint-cost list and the observation. -/
def step_apply (env : Env) (delta : ℤ × ℤ) : (Obs × ℤ × Bool × List ℕ) × Env :=
  let ns : ℤ × ℤ := (env.state.1 + delta.1, env.state.2 + delta.2)
  let st2 : ℤ × ℤ :=
    if ns.1 < 0 ∨ (env.gridsize : ℤ) ≤ ns.1 ∨ ns.2 < 0 ∨ (env.gridsize : ℤ) ≤ ns.2 then
      env.state
    else ns
  let env2 : Env := { env with state := st2 }
  ((if env2.img_observation then Obs.img (state_to_img env2) else Obs.oh (state_to_oh env2),
    if st2 = env.goal_state then (1000 : ℤ) else -1,
    if st2 = env.goal_state then true else false,
    if st2 = env.goal_state then [0] else if st2 ∈ env.obstacle_states then [1] else [0]),
   env2)

/-- GridNavigationEnv.step.  g is the process-global np.random source: the
stochastic-override Bernoulli trial and, when it fires, the uniform
replacement action are drawn from it (the source code uses np.random here,
not the seeded self.np_random).  The environment state and the global
source after the call are returned alongside the result, also when an
exception is raised, mirroring Python's state surviving an exception. -/
def stepE (g : RNG) (env : Env) (action : ℕ) :
    Except PyError (Obs × ℤ × Bool × List ℕ) × Env × RNG :=
  match binomial1 env.stochasticity g with
  | Except.error e => (Except.error e, env, g)
  | Except.ok (b, g1) =>
      match (if b ≠ 0 then randint 0 4 g1 else Except.ok (action, g1)) with
      | Except.error e => (Except.error e, env, g1)
      | Except.ok (action2, g2) =>
          match ACTIONS action2 with
          | none => (Except.error PyError.keyError, env, g2)
          | some delta =>
              (Except.ok (step_apply env delta).1, (step_apply env delta).2, g2)

/-- Abstraction of the external gym.utils.seeding.np_random capability:
the seeded PRNG is modelled as a fixed deterministic function of the seed,
so equal seeds give equal streams (the concrete values are external to
this repository and irrelevant to every claim below). -/
def np_random_seed (seedv : ℕ) : RNG := ⟨fun k => (seedv + k, 0), 0⟩

/-- GridNavigationEnv.seed: installs the seeded source and reports the
seed used. -/
def seed_op (seedv : ℕ) : RNG × ℕ := (np_random_seed seedv, seedv)

/-- A configure-then-step run, projected to the new agent position. -/
def run1_state (npr g : RNG) (n : ℕ) (rho st : ℚ) (a : ℕ) :
    Except PyError (ℤ × ℤ) :=
  match make_game npr n rho st false with
  | Except.error e => Except.error e
  | Except.ok env =>
      match stepE g env a with
      | (Except.error e, _, _) => Except.error e
      | (Except.ok _, env2, _) => Except.ok env2.state

/-- A seed-then-configure-then-step run, projected to the returned
(observation, reward, done, constraint-costs) tuple.  g is the state of
the process-global np.random, which the seed call does not touch. -/
def run1_out (seedv : ℕ) (g : RNG) (n : ℕ) (rho st : ℚ) (a : ℕ) :
    Except PyError (Obs × ℤ × Bool × List ℕ) :=
  match make_game (seed_op seedv).1 n rho st false with
  | Except.error e => Except.error e
  | Except.ok env => (stepE g env a).1

deriving instance DecidableEq for Except

/-! Concrete fixtures used by the evaluation theorems and witnesses. -/

/-- A global-np.random state whose draws are all (0, 0). -/
def rngZ : RNG := ⟨fun _ => (0, 0), 0⟩

/-- A seeded-source state whose draws are all (1, 0). -/
def rngOne : RNG := ⟨fun _ => (1, 0), 0⟩

/-- A global-np.random state whose draws are all (3, 0). -/
def rngB : RNG := ⟨fun _ => (3, 0), 0⟩

/-- A concrete configured 3×3 environment with stochasticity 0: goal at
(0,2), one obstacle at (1,1), agent at the start (2,2). -/
def envT : Env where
  gridsize := 3
  rho := 0
  stochasticity := 0
  img_observation := false
  art := [[' ', ' ', 'G'], [' ', '#', ' '], [' ', ' ', 'P']]
  start_state := (2, 2)
  goal_state := (0, 2)
  state := (2, 2)
  obstacle_states := [(1, 1)]
  art_img := get_art_img [[' ', ' ', 'G'], [' ', '#', ' '], [' ', ' ', 'P']]
  np_random := rngZ

/-- The same board with stochasticity 1 (the override always fires). -/
def envS : Env := { envT with stochasticity := 1 }

/-- The environment produced by a concrete successful make_game call
(gridsize 3, rho 1), used as a witness instance for the generation
invariants. -/
def envW : Env := (make_game rngZ 3 1 0 false).toOption.getD envT

/-! Helper lemmas about the random primitives and step. -/

lemma unitOf_nonneg (p : ℕ × ℕ) : 0 ≤ unitOf p := by
  unfold unitOf
  rw [Rat.mkRat_eq_div]
  positivity

/-- A Bernoulli trial with probability 0 always returns 0 and consumes one draw. -/
lemma binomial1_zero (g : RNG) :
    binomial1 0 g = Except.ok (0, ⟨g.stream, g.idx + 1⟩) := by
  unfold binomial1
  have h1 : ¬((0 : ℚ) < 0 ∨ (1 : ℚ) < 0) := by norm_num
  have h2 : ¬(unitOf (g.stream g.idx) < 0) := not_lt.mpr (unitOf_nonneg _)
  rw [if_neg h1, if_neg h2]

/-- A Bernoulli trial with in-range probability succeeds and consumes one draw. -/
lemma binomial1_ok {p : ℚ} (h0 : 0 ≤ p) (h1 : p ≤ 1) (g : RNG) :
    binomial1 p g =
      Except.ok (if unitOf (g.stream g.idx) < p then 1 else 0, ⟨g.stream, g.idx + 1⟩) := by
  unfold binomial1
  rw [if_neg]
  push_neg
  exact ⟨h0, h1⟩

/-- Keys outside {0,1,2,3} are missing from the ACTIONS table. -/
lemma ACTIONS_none {a : ℕ} (h : 4 ≤ a) : ACTIONS a = none := by
  unfold ACTIONS
  rw [if_neg (by omega), if_neg (by omega), if_neg (by omega), if_neg (by omega)]

/-- The state after step_apply: the candidate if it is inside the grid,
the old state otherwise. -/
lemma step_apply_state (env : Env) (d : ℤ × ℤ) :
    ((step_apply env d).2).state =
      (if env.state.1 + d.1 < 0 ∨ (env.gridsize : ℤ) ≤ env.state.1 + d.1 ∨
          env.state.2 + d.2 < 0 ∨ (env.gridsize : ℤ) ≤ env.state.2 + d.2 then
        env.state
      else (env.state.1 + d.1, env.state.2 + d.2)) := rfl

lemma step_apply_reward (env : Env) (d : ℤ × ℤ) :
    (step_apply env d).1.2.1 =
      (if (step_apply env d).2.state = env.goal_state then (1000 : ℤ) else -1) := rfl

lemma step_apply_done (env : Env) (d : ℤ × ℤ) :
    (step_apply env d).1.2.2.1 =
      (if (step_apply env d).2.state = env.goal_state then true else false) := rfl

lemma step_apply_costs (env : Env) (d : ℤ × ℤ) :
    (step_apply env d).1.2.2.2 =
      (if (step_apply env d).2.state = env.goal_state then [0]
       else if (step_apply env d).2.state ∈ env.obstacle_states then [1] else [0]) := rfl

lemma step_apply_goal (env : Env) (d : ℤ × ℤ) :
    (step_apply env d).2.goal_state = env.goal_state := rfl

lemma binomial1_err {p : ℚ} (h : p < 0 ∨ 1 < p) (g : RNG) :
    binomial1 p g = Except.error PyError.valueError := by
  unfold binomial1
  rw [if_pos h]

lemma randint_ok (lo hi : ℕ) (h : lo < hi) (r : RNG) :
    randint lo hi r =
      Except.ok (lo + (r.stream r.idx).1 % (hi - lo), ⟨r.stream, r.idx + 1⟩) := by
  unfold randint
  rw [if_neg (by omega)]

/-- Every row produced by the obstacle loop has the requested length and
holds only Empty or Obstacle cells. -/
lemma buildRow_spec (rho : ℚ) :
    ∀ (cnt : ℕ) (r : RNG) (row : List Char) (r2 : RNG),
      buildRow rho cnt r = Except.ok (row, r2) →
      row.length = cnt ∧ ∀ ch ∈ row, ch = ' ' ∨ ch = '#' := by
  intro cnt
  induction cnt with
  | zero =>
    intro r row r2 h
    unfold buildRow at h
    simp only [Except.ok.injEq, Prod.mk.injEq] at h
    rw [← h.1]
    simp
  | succ k ih =>
    intro r row r2 h
    unfold buildRow at h
    split at h
    · simp at h
    · rename_i b r1 hb
      split at h
      · simp at h
      · rename_i rest r3 hrest
        simp only [Except.ok.injEq, Prod.mk.injEq] at h
        obtain ⟨hspec1, hspec2⟩ := ih r1 rest r3 hrest
        rw [← h.1]
        constructor
        · simp [hspec1]
        · intro ch hch
          rcases List.mem_cons.mp hch with hh | hh
          · subst hh
            by_cases hb0 : b = 0
            · rw [if_pos hb0]; exact Or.inl rfl
            · rw [if_neg hb0]; exact Or.inr rfl
          · exact hspec2 ch hh

/-- The middle-row loop produces the requested number of rows, each of the
requested width, holding only Empty or Obstacle cells. -/
lemma buildRows_spec (rho : ℚ) (w : ℕ) :
    ∀ (cnt : ℕ) (r : RNG) (rows : List (List Char)) (r2 : RNG),
      buildRows rho w cnt r = Except.ok (rows, r2) →
      rows.length = cnt ∧
      ∀ row ∈ rows, row.length = w ∧ ∀ ch ∈ row, ch = ' ' ∨ ch = '#' := by
  intro cnt
  induction cnt with
  | zero =>
    intro r rows r2 h
    unfold buildRows at h
    simp only [Except.ok.injEq, Prod.mk.injEq] at h
    rw [← h.1]
    simp
  | succ k ih =>
    intro r rows r2 h
    unfold buildRows at h
    split at h
    · simp at h
    · rename_i row r1 hrow
      split at h
      · simp at h
      · rename_i rest r3 hrest
        simp only [Except.ok.injEq, Prod.mk.injEq] at h
        obtain ⟨hl, hmem⟩ := ih r1 rest r3 hrest
        rw [← h.1]
        refine ⟨by simp [hl], ?_⟩
        intro rr hrr
        rcases List.mem_cons.mp hrr with hh | hh
        · rw [hh]
          exact buildRow_spec rho w r row r1 hrow
        · exact hmem rr hh

/-- The flattening of equal-width rows has length rows × width. -/
lemma flatten_length_const {rows : List (List Char)} {w : ℕ}
    (h : ∀ row ∈ rows, row.length = w) :
    rows.flatten.length = rows.length * w := by
  induction rows with
  | nil => simp
  | cons a t ih =>
    have ha : a.length = w := h a (by simp)
    have ht := ih (fun row hr => h row (by simp [hr]))
    simp only [List.flatten_cons, List.length_append, List.length_cons, ha, ht]
    ring

/-- Members of a written-once replicate row are the fill or the write. -/
lemma mem_set_replicate {n i : ℕ} {x v ch : Char}
    (h : ch ∈ (List.replicate n x).set i v) : ch = x ∨ ch = v := by
  rcases List.mem_or_eq_of_mem_set h with h1 | h2
  · exact Or.inl (List.eq_of_mem_replicate h1)
  · exact Or.inr h2

/-- Structure of the flat art array: goal row, middle obstacle block of
(n-2)·n Empty/Obstacle cells, start row. -/
lemma build_asci_art_spec (n : ℕ) (rho : ℚ) (r : RNG) (flat : List Char) (r2 : RNG)
    (h : build_asci_art n rho r = Except.ok (flat, r2)) :
    ∃ alpha midf, alpha < n ∧
      midf.length = (n - 2) * n ∧
      (∀ ch ∈ midf, ch = ' ' ∨ ch = '#') ∧
      flat = ((List.replicate n ' ').set alpha 'G') ++
        (midf ++ ((List.replicate n ' ').set (n - 1) 'P')) := by
  unfold build_asci_art at h
  split at h
  · simp at h
  · rename_i alpha r1 hrand
    split at h
    · simp at h
    · rename_i mid r3 hmid
      simp only [Except.ok.injEq, Prod.mk.injEq] at h
      obtain ⟨hrows, hmem⟩ := buildRows_spec rho n (n - 2) r1 mid r3 hmid
      have halpha : alpha < n := by
        unfold randint at hrand
        split at hrand
        · simp at hrand
        · rename_i hn
          simp only [Except.ok.injEq, Prod.mk.injEq] at hrand
          have : alpha = 0 + (r.stream r.idx).1 % (n - 0) := hrand.1.symm
          rw [this]
          simp only [Nat.zero_add, Nat.sub_zero]
          exact Nat.mod_lt _ (by omega)
      refine ⟨alpha, mid.flatten, halpha, ?_, ?_, ?_⟩
      · rw [flatten_length_const (fun row hr => (hmem row hr).1), hrows]
      · intro ch hch
        obtain ⟨row, hrow, hchrow⟩ := List.mem_flatten.mp hch
        exact (hmem row hrow).2 ch hchrow
      · rw [← h.1]
        simp [List.flatten_append, List.append_assoc]

lemma argwhereRow_eq_nil_iff (i : ℕ) (c : Char) :
    ∀ (j : ℕ) (row : List Char), argwhereRow i c j row = [] ↔ c ∉ row := by
  intro j row
  induction row generalizing j with
  | nil => simp [argwhereRow]
  | cons a t ih =>
    unfold argwhereRow
    by_cases hac : a = c
    · rw [if_pos hac]
      simp [hac]
    · rw [if_neg hac]
      rw [ih (j + 1)]
      constructor
      · intro h hmem
        rcases List.mem_cons.mp hmem with hh | hh
        · exact hac hh.symm
        · exact h hh
      · intro h hmem
        exact h (List.mem_cons_of_mem a hmem)

lemma argwhereFrom_eq_nil_iff (c : Char) :
    ∀ (i : ℕ) (art : List (List Char)),
      argwhereFrom c i art = [] ↔ ∀ row ∈ art, c ∉ row := by
  intro i art
  induction art generalizing i with
  | nil => simp [argwhereFrom]
  | cons a t ih =>
    unfold argwhereFrom
    rw [List.append_eq_nil, argwhereRow_eq_nil_iff, ih (i + 1)]
    simp [List.forall_mem_cons]

/-- An in-range Bernoulli parameter lets the obstacle loop succeed. -/
lemma buildRow_ok {rho : ℚ} (h0 : 0 ≤ rho) (h1 : rho ≤ 1) :
    ∀ (cnt : ℕ) (r : RNG), ∃ row r2, buildRow rho cnt r = Except.ok (row, r2) := by
  intro cnt
  induction cnt with
  | zero => exact fun r => ⟨[], r, rfl⟩
  | succ k ih =>
    intro r
    obtain ⟨row, r2, hr⟩ := ih ⟨r.stream, r.idx + 1⟩
    unfold buildRow
    rw [binomial1_ok h0 h1]
    dsimp only
    rw [hr]
    exact ⟨_, _, rfl⟩

lemma buildRows_ok {rho : ℚ} (h0 : 0 ≤ rho) (h1 : rho ≤ 1) (w : ℕ) :
    ∀ (cnt : ℕ) (r : RNG), ∃ rows r2, buildRows rho w cnt r = Except.ok (rows, r2) := by
  intro cnt
  induction cnt with
  | zero => exact fun r => ⟨[], r, rfl⟩
  | succ k ih =>
    intro r
    obtain ⟨row, r1, hrow⟩ := buildRow_ok h0 h1 w r
    obtain ⟨rest, r2, hrest⟩ := ih r1
    unfold buildRows
    rw [hrow]
    dsimp only
    rw [hrest]
    exact ⟨_, _, rfl⟩

lemma buildRow_err {rho : ℚ} (h : rho < 0 ∨ 1 < rho) {cnt : ℕ} (hc : 1 ≤ cnt) (r : RNG) :
    buildRow rho cnt r = Except.error PyError.valueError := by
  obtain ⟨k, rfl⟩ : ∃ k, cnt = k + 1 := ⟨cnt - 1, by omega⟩
  unfold buildRow
  rw [binomial1_err h]

lemma buildRows_err {rho : ℚ} (h : rho < 0 ∨ 1 < rho) {w cnt : ℕ}
    (hw : 1 ≤ w) (hc : 1 ≤ cnt) (r : RNG) :
    buildRows rho w cnt r = Except.error PyError.valueError := by
  obtain ⟨k, rfl⟩ : ∃ k, cnt = k + 1 := ⟨cnt - 1, by omega⟩
  unfold buildRows
  rw [buildRow_err h hw]

/-- Grid generation succeeds whenever the grid is nonempty and either no
Bernoulli trial happens (n ≤ 2) or rho is a valid probability. -/
lemma build_asci_art_ok {rho : ℚ} {n : ℕ} (hn : 1 ≤ n)
    (hok : n ≤ 2 ∨ (0 ≤ rho ∧ rho ≤ 1)) (r : RNG) :
    ∃ flat r2, build_asci_art n rho r = Except.ok (flat, r2) := by
  have hmid : ∃ mid r3,
      buildRows rho n (n - 2) ⟨r.stream, r.idx + 1⟩ = Except.ok (mid, r3) := by
    rcases hok with h2 | ⟨h0, h1⟩
    · have hz : n - 2 = 0 := by omega
      rw [hz]
      exact ⟨[], _, rfl⟩
    · exact buildRows_ok h0 h1 n _ _
  obtain ⟨mid, r3, hmidE⟩ := hmid
  unfold build_asci_art
  rw [randint_ok 0 n (by omega)]
  dsimp only
  rw [hmidE]
  exact ⟨_, _, rfl⟩

lemma build_asci_art_zero (rho : ℚ) (r : RNG) :
    build_asci_art 0 rho r = Except.error PyError.valueError := rfl

lemma build_asci_art_err {rho : ℚ} (h : rho < 0 ∨ 1 < rho) {n : ℕ} (hn : 3 ≤ n) (r : RNG) :
    build_asci_art n rho r = Except.error PyError.valueError := by
  unfold build_asci_art
  rw [randint_ok 0 n (by omega)]
  dsimp only
  rw [buildRows_err h (by omega) (by omega)]

lemma make_game_of_build_err {npr : RNG} {n : ℕ} {rho st : ℚ} {bb : Bool} {e : PyError}
    (h : build_asci_art n rho npr = Except.error e) :
    make_game npr n rho st bb = Except.error e := by
  unfold make_game
  rw [h]

/-- Row i of the reshaped art array is the i-th n-slice of the flat array. -/
lemma art_row (flat : List Char) (n i : ℕ) (hi : i < n) :
    ((List.range n).map (fun j => (flat.drop (j * n)).take n)).getD i [] =
      (flat.drop (i * n)).take n := by
  rw [List.getD_eq_getElem?_getD, List.getElem?_map, List.getElem?_range hi]
  rfl

/-- Setting one cell of a blank row to the goal marker yields count 1. -/
lemma count_set_replicate_G (n alpha : ℕ) (h : alpha < n) :
    ((List.replicate n ' ').set alpha 'G').count 'G' = 1 := by
  have hlen : alpha < (List.replicate n ' ').length := by simpa using h
  rw [List.count_set 'G' 'G' (List.replicate n ' ') alpha hlen]
  simp [List.count_replicate, List.getElem_replicate]

/-- Reading back the written cell of a written-once blank row. -/
lemma getD_set_replicate_self (n i : ℕ) (x v : Char) (h : i < n) :
    ((List.replicate n x).set i v).getD i x = v := by
  rw [List.getD_eq_getElem?_getD, List.getElem?_set]
  simp [h]

/-- Inversion of a successful make_game: the art field is the n×n reshape
of a generated flat array with the goal row, the obstacle block and the
start row, and gridsize is stored as given. -/
lemma make_game_inv (npr : RNG) (n : ℕ) (rho st : ℚ) (bb : Bool) (env : Env)
    (h : make_game npr n rho st bb = Except.ok env) :
    (∃ flat r1, build_asci_art n rho npr = Except.ok (flat, r1)) ∧
    env.gridsize = n ∧
    ∃ alpha midf, alpha < n ∧
      midf.length = (n - 2) * n ∧
      (∀ ch ∈ midf, ch = ' ' ∨ ch = '#') ∧
      (((List.replicate n ' ').set alpha 'G') ++
        (midf ++ ((List.replicate n ' ').set (n - 1) 'P'))).length = n * n ∧
      env.art = (List.range n).map (fun i =>
        ((((List.replicate n ' ').set alpha 'G') ++
          (midf ++ ((List.replicate n ' ').set (n - 1) 'P'))).drop (i * n)).take n) := by
  unfold make_game at h
  split at h
  · simp at h
  · rename_i flat r1 hbuild
    split at h
    · simp at h
    · rename_i art hresh
      split at h
      · simp at h
      · rename_i goal rest hgw
        simp only [Except.ok.injEq] at h
        obtain ⟨alpha, midf, halpha, hmlen, hmmem, hflat⟩ :=
          build_asci_art_spec n rho npr flat r1 hbuild
        subst hflat
        unfold reshape2 at hresh
        split at hresh
        · rename_i hlen
          simp only [Except.ok.injEq] at hresh
          subst hresh
          refine ⟨⟨_, _, hbuild⟩, ?_, alpha, midf, halpha, hmlen, hmmem, hlen, ?_⟩
          · rw [← h]
          · rw [← h]
        · simp at hresh

/-- Inversion of a successful step call: some effective action was looked
up in ACTIONS and the pure tail produced the output and the new state. -/
lemma stepE_ok_inv {g : RNG} {env : Env} {a : ℕ} {out : Obs × ℤ × Bool × List ℕ}
    {env2 : Env} {g2 : RNG}
    (h : stepE g env a = (Except.ok out, env2, g2)) :
    ∃ a2 d, ACTIONS a2 = some d ∧
      out = (step_apply env d).1 ∧ env2 = (step_apply env d).2 := by
  unfold stepE at h
  split at h
  · simp at h
  · split at h
    · simp at h
    · rename_i b g1 hb a2 g3 hr
      split at h
      · simp at h
      · rename_i d hA
        simp only [Prod.mk.injEq, Except.ok.injEq] at h
        exact ⟨a2, d, hA, h.1.symm, h.2.1.symm⟩

/-- A deterministic (stochasticity 0) step with a valid action reduces to
the pure tail on that action's delta. -/
lemma stepE_det {g : RNG} {env : Env} {a : ℕ} {d : ℤ × ℤ}
    (hst : env.stochasticity = 0) (ha : ACTIONS a = some d) :
    stepE g env a =
      (Except.ok (step_apply env d).1, (step_apply env d).2, ⟨g.stream, g.idx + 1⟩) := by
  unfold stepE
  rw [hst, binomial1_zero]
  simp only [ne_eq, not_true_eq_false, ite_false, ha]

/-- Goal-count sum over the rows: one in row 0, zero in every later row,
gives total one. -/
lemma map_count_sum_one (k : ℕ) (f : ℕ → List Char)
    (h0 : (f 0).count 'G' = 1)
    (hrest : ∀ i, 1 ≤ i → i < k + 1 → (f i).count 'G' = 0) :
    (((List.range (k + 1)).map f).map (fun row => row.count 'G')).sum = 1 := by
  rw [List.range_succ_eq_map, List.map_cons, List.map_cons, List.sum_cons, h0]
  have hz : ((((List.range k).map Nat.succ).map f).map (fun row => row.count 'G')).sum = 0 := by
    apply List.sum_eq_zero
    intro x hx
    obtain ⟨row, hrow, hcnt⟩ := List.mem_map.mp hx
    obtain ⟨i, hi, hfi⟩ := List.mem_map.mp hrow
    obtain ⟨j, hj, hji⟩ := List.mem_map.mp hi
    rw [← hcnt, ← hfi, ← hji]
    exact hrest (Nat.succ j) (by omega) (by have := List.mem_range.mp hj; omega)
  rw [hz]

lemma getD_set_eq {α : Type} (l : List α) (i : ℕ) (v d : α) (h : i < l.length) :
    (l.set i v).getD i d = v := by
  rw [List.getD_eq_getElem?_getD, List.getElem?_set, if_pos rfl, if_pos h]
  rfl

lemma getD_set_ne {α : Type} (l : List α) {i k : ℕ} (v d : α) (h : i ≠ k) :
    (l.set i v).getD k d = l.getD k d := by
  rw [List.getD_eq_getElem?_getD, List.getElem?_set, if_neg h, ← List.getD_eq_getElem?_getD]

lemma getD_replicate {α : Type} {n k : ℕ} (x d : α) (h : k < n) :
    (List.replicate n x).getD k d = x := by
  rw [List.getD_eq_getElem?_getD, List.getElem?_replicate, if_pos h]
  rfl

/-! Claim theorems. -/

/-- C1: the code disagrees with the claimed action deltas.  The ACTIONS
table maps action 0 to delta (-1,0) and action 2 to delta (+1,0) — the
opposite of the claimed Down=(+1,0) for 0 and Up=(-1,0) for 2 — and a
deterministic in-bounds step with action 0 from the start (2,2) of a 3×3
obstacle-free grid moves the agent to (1,2), decreasing the row. -/
theorem c1_action_deltas_swapped :
    ACTIONS 0 = some (-1, 0) ∧ ACTIONS 2 = some (1, 0) ∧
    run1_state rngOne rngZ 3 0 0 0 = Except.ok (1, 2) := by
  refine ⟨rfl, rfl, ?_⟩
  rfl

/-- C2: step's chance points do not consume the seeded source.  Two runs
that seed with the same value 42 and make the same make_game(2, 0, 1)
and step(1) calls return different (observation, reward, done,
constraint-costs) tuples when the process-global np.random state differs,
because step draws its stochastic override from the global source. -/
theorem c2_seed_does_not_determine_step :
    run1_out 42 rngZ 2 0 1 1 ≠ run1_out 42 rngB 2 0 1 1 := by decide

/-- C7 counterexample: make_game performs no validation.  With
stochasticity = 2 (outside [0,1]) and otherwise in-range parameters it
succeeds instead of failing with InvalidConfiguration. -/
theorem c7_counterexample_no_validation :
    (make_game rngZ 2 (mkRat 3 10) 2 false).isOk = true := by decide

/-- C8 counterexample: an out-of-range action does not always fail.  With
stochasticity 1 the override trial fires, the action 7 is replaced by a
random legal action drawn from the global source, and step succeeds. -/
theorem c8_counterexample_override_swallows_invalid_action :
    (stepE rngZ envS 7).1.isOk = true := by decide

/-- C3: every successfully generated grid (gridsize ≥ 2, any rho, any
random-source state) contains exactly one Goal cell, located in row 0; no
Obstacle cell in row 0 or in the last row; and the bottom-right start cell
is neither an Obstacle nor the Goal. -/
theorem c3_grid_invariants (npr : RNG) (n : ℕ) (rho st : ℚ) (bb : Bool) (env : Env)
    (h2 : 2 ≤ n) (h : make_game npr n rho st bb = Except.ok env) :
    env.gridsize = n ∧
    env.art.length = n ∧
    (env.art.map (fun row => row.count 'G')).sum = 1 ∧
    (env.art.getD 0 []).count 'G' = 1 ∧
    (env.art.getD 0 []).count '#' = 0 ∧
    (env.art.getD (n - 1) []).count '#' = 0 ∧
    (env.art.getD (n - 1) []).getD (n - 1) ' ' ≠ '#' ∧
    (env.art.getD (n - 1) []).getD (n - 1) ' ' ≠ 'G' := by
  obtain ⟨-, hgs, alpha, midf, halpha, hmlen, hmmem, hlen, hart⟩ :=
    make_game_inv npr n rho st bb env h
  obtain ⟨m, rfl⟩ : ∃ m, n = m + 2 := ⟨n - 2, by omega⟩
  have hsub2 : m + 2 - 2 = m := by omega
  have hsub1 : m + 2 - 1 = m + 1 := by omega
  rw [hsub2] at hmlen
  rw [hsub1] at hart hlen
  rw [hsub1]
  set first : List Char := (List.replicate (m + 2) ' ').set alpha 'G' with hfirstdef
  set last : List Char := (List.replicate (m + 2) ' ').set (m + 1) 'P' with hlastdef
  have hfl : first.length = m + 2 := by rw [hfirstdef]; simp
  have hll : last.length = m + 2 := by rw [hlastdef]; simp
  have hartlen : env.art.length = m + 2 := by rw [hart]; simp
  have hrow0 : env.art.getD 0 [] = first := by
    rw [hart, art_row _ _ 0 (by omega), Nat.zero_mul, List.drop_zero]
    exact List.take_left' hfl
  have hprefix : (first ++ midf).length = (m + 1) * (m + 2) := by
    rw [List.length_append, hfl, hmlen]
    ring
  have hrowlast : env.art.getD (m + 1) [] = last := by
    rw [hart, art_row _ _ (m + 1) (by omega)]
    rw [show first ++ (midf ++ last) = (first ++ midf) ++ last from
      (List.append_assoc _ _ _).symm]
    rw [show (m + 1) * (m + 2) = (first ++ midf).length from hprefix.symm]
    rw [List.drop_left]
    rw [← hll, List.take_length]
  have hsliceNoG : ∀ i, 1 ≤ i →
      (((first ++ (midf ++ last)).drop (i * (m + 2))).take (m + 2)).count 'G' = 0 := by
    intro i h1
    apply List.count_eq_zero.mpr
    intro hG
    have hG2 : 'G' ∈ (first ++ (midf ++ last)).drop (i * (m + 2)) :=
      List.mem_of_mem_take hG
    have hge : m + 2 ≤ i * (m + 2) := Nat.le_mul_of_pos_left _ (by omega)
    rw [show i * (m + 2) = (m + 2) + (i * (m + 2) - (m + 2)) from by omega] at hG2
    rw [← List.drop_drop] at hG2
    rw [List.drop_left' hfl] at hG2
    have hG3 : 'G' ∈ midf ++ last := List.mem_of_mem_drop hG2
    rcases List.mem_append.mp hG3 with hh | hh
    · rcases hmmem 'G' hh with h4 | h4 <;> exact absurd h4 (by decide)
    · rw [hlastdef] at hh
      rcases mem_set_replicate hh with h4 | h4 <;> exact absurd h4 (by decide)
  have hcount0 : (env.art.getD 0 []).count 'G' = 1 := by
    rw [hrow0, hfirstdef]
    exact count_set_replicate_G _ _ halpha
  have hsum : (env.art.map (fun row => row.count 'G')).sum = 1 := by
    rw [hart]
    exact map_count_sum_one (m + 1) _
      (by
        rw [Nat.zero_mul, List.drop_zero, List.take_left' hfl, hfirstdef]
        exact count_set_replicate_G _ _ halpha)
      (fun i h1 _ => hsliceNoG i h1)
  have hhash0 : (env.art.getD 0 []).count '#' = 0 := by
    rw [hrow0]
    apply List.count_eq_zero.mpr
    intro hmem
    rw [hfirstdef] at hmem
    rcases mem_set_replicate hmem with h4 | h4 <;> exact absurd h4 (by decide)
  have hhashlast : (env.art.getD (m + 1) []).count '#' = 0 := by
    rw [hrowlast]
    apply List.count_eq_zero.mpr
    intro hmem
    rw [hlastdef] at hmem
    rcases mem_set_replicate hmem with h4 | h4 <;> exact absurd h4 (by decide)
  have hcorner : (env.art.getD (m + 1) []).getD (m + 1) ' ' = 'P' := by
    rw [hrowlast, hlastdef]
    exact getD_set_replicate_self _ _ _ _ (by omega)
  refine ⟨hgs, hartlen, hsum, hcount0, hhash0, hhashlast, ?_, ?_⟩
  · rw [hcorner]; decide
  · rw [hcorner]; decide

/-- C3 witness: the concrete generated 3×3 grid with rho = 1. -/
theorem c3_witness :
    2 ≤ 3 ∧
    (envW.gridsize = 3 ∧
     envW.art.length = 3 ∧
     (envW.art.map (fun row => row.count 'G')).sum = 1 ∧
     (envW.art.getD 0 []).count 'G' = 1 ∧
     (envW.art.getD 0 []).count '#' = 0 ∧
     (envW.art.getD (3 - 1) []).count '#' = 0 ∧
     (envW.art.getD (3 - 1) []).getD (3 - 1) ' ' ≠ '#' ∧
     (envW.art.getD (3 - 1) []).getD (3 - 1) ' ' ≠ 'G') :=
  ⟨by decide, c3_grid_invariants rngZ 3 1 0 false envW (by decide) (by rfl)⟩

/-- C4: every successful step call returns reward -1 and done = false,
except when the position resulting from the movement rule equals the goal
position, in which case it returns reward 1000 and done = true; done is set
by no other condition (stepE has no step counter at all). -/
theorem c4_reward_and_done (g : RNG) (env : Env) (a : ℕ) (obs : Obs) (r : ℤ)
    (dn : Bool) (c : List ℕ) (env2 : Env) (g2 : RNG)
    (h : stepE g env a = (Except.ok (obs, r, dn, c), env2, g2)) :
    (env2.state = env.goal_state → r = 1000 ∧ dn = true) ∧
    (env2.state ≠ env.goal_state → r = -1 ∧ dn = false) := by
  obtain ⟨a2, d, hA, hout, henv⟩ := stepE_ok_inv h
  have hr : r = (step_apply env d).1.2.1 := congrArg (fun t => t.2.1) hout
  have hd : dn = (step_apply env d).1.2.2.1 := congrArg (fun t => t.2.2.1) hout
  rw [step_apply_reward] at hr
  rw [step_apply_done] at hd
  subst henv
  constructor
  · intro hg
    rw [if_pos hg] at hr
    rw [if_pos hg] at hd
    exact ⟨hr, hd⟩
  · intro hg
    rw [if_neg hg] at hr
    rw [if_neg hg] at hd
    exact ⟨hr, hd⟩

/-- C4 witness: on the concrete 3×3 board, stepping right from (0,1)
reaches the goal (0,2) and returns reward 1000, done = true. -/
theorem c4_witness :
    (({ envT with state := ((0 : ℤ), (2 : ℤ)) } : Env).state = envT.goal_state →
      (1000 : ℤ) = 1000 ∧ true = true) ∧
    (({ envT with state := ((0 : ℤ), (2 : ℤ)) } : Env).state ≠ envT.goal_state →
      (1000 : ℤ) = -1 ∧ true = false) :=
  c4_reward_and_done rngZ { envT with state := (0, 1) } 3
    (Obs.oh [0, 0, 1, 0, 0, 0, 0, 0, 0]) 1000 true [0]
    { envT with state := (0, 2) } ⟨rngZ.stream, 1⟩ rfl

/-- C5: a successful step call returns constraint cost [1] exactly when
the position after the movement rule is an obstacle cell and the goal
condition is false (the goal check short-circuits the obstacle check),
and [0] otherwise. -/
theorem c5_constraint_cost (g : RNG) (env : Env) (a : ℕ) (obs : Obs) (r : ℤ)
    (dn : Bool) (c : List ℕ) (env2 : Env) (g2 : RNG)
    (h : stepE g env a = (Except.ok (obs, r, dn, c), env2, g2)) :
    (c = [1] ↔ env2.state ∈ env.obstacle_states ∧ env2.state ≠ env.goal_state) ∧
    (c = [0] ∨ c = [1]) := by
  obtain ⟨a2, d, hA, hout, henv⟩ := stepE_ok_inv h
  have hc : c = (step_apply env d).1.2.2.2 := congrArg (fun t => t.2.2.2) hout
  rw [step_apply_costs] at hc
  subst henv
  by_cases hg : (step_apply env d).2.state = env.goal_state
  · rw [if_pos hg] at hc
    subst hc
    refine ⟨⟨fun h10 => absurd h10 (by simp), fun hh => absurd hg hh.2⟩, Or.inl rfl⟩
  · rw [if_neg hg] at hc
    by_cases hm : (step_apply env d).2.state ∈ env.obstacle_states
    · rw [if_pos hm] at hc
      subst hc
      exact ⟨⟨fun _ => ⟨hm, hg⟩, fun _ => rfl⟩, Or.inr rfl⟩
    · rw [if_neg hm] at hc
      subst hc
      refine ⟨⟨fun h01 => absurd h01 (by simp), fun hh => absurd hh.1 hm⟩, Or.inl rfl⟩

/-- C5 witness: on the concrete 3×3 board, stepping from (2,1) with
action 0 lands on the obstacle (1,1), which is not the goal, and the
returned constraint cost is [1]. -/
theorem c5_witness :
    (([1] : List ℕ) = [1] ↔
      (({ envT with state := ((1 : ℤ), (1 : ℤ)) } : Env).state ∈ envT.obstacle_states ∧
       ({ envT with state := ((1 : ℤ), (1 : ℤ)) } : Env).state ≠ envT.goal_state)) ∧
    (([1] : List ℕ) = [0] ∨ ([1] : List ℕ) = [1]) :=
  c5_constraint_cost rngZ { envT with state := (2, 1) } 0
    (Obs.oh [0, 0, 0, 0, 1, 0, 0, 0, 0]) (-1) false [1]
    { envT with state := (1, 1) } ⟨rngZ.stream, 1⟩ rfl

/-- C6: in every successful step call the effective action's delta is
applied when the candidate position lies inside the grid and the position
is left unchanged otherwise; in particular, a deterministic step from
(0,0) on a board whose cell (0,0) is Empty with an action of delta (-1,0)
or (0,-1) leaves the position at (0,0) with reward -1, done = false and
constraint cost [0]. -/
theorem c6_boundary_absorption (g : RNG) (env : Env) (a : ℕ) (obs : Obs) (r : ℤ)
    (dn : Bool) (c : List ℕ) (env2 : Env) (g2 : RNG)
    (h : stepE g env a = (Except.ok (obs, r, dn, c), env2, g2)) :
    (∃ a2 d, ACTIONS a2 = some d ∧
      ((0 ≤ env.state.1 + d.1 ∧ env.state.1 + d.1 < (env.gridsize : ℤ) ∧
        0 ≤ env.state.2 + d.2 ∧ env.state.2 + d.2 < (env.gridsize : ℤ)) →
        env2.state = (env.state.1 + d.1, env.state.2 + d.2)) ∧
      (¬(0 ≤ env.state.1 + d.1 ∧ env.state.1 + d.1 < (env.gridsize : ℤ) ∧
        0 ≤ env.state.2 + d.2 ∧ env.state.2 + d.2 < (env.gridsize : ℤ)) →
        env2.state = env.state)) ∧
    (env.stochasticity = 0 → env.state = (0, 0) → env.goal_state ≠ (0, 0) →
      ((0 : ℤ), (0 : ℤ)) ∉ env.obstacle_states → a = 0 ∨ a = 1 →
      env2.state = (0, 0) ∧ r = -1 ∧ dn = false ∧ c = [0]) := by
  obtain ⟨a2, d, hA, hout, henv⟩ := stepE_ok_inv h
  constructor
  · refine ⟨a2, d, hA, ?_, ?_⟩
    · intro hin
      rw [henv, step_apply_state, if_neg (by omega)]
    · intro hnin
      rw [henv, step_apply_state, if_pos (by omega)]
  · intro hst h00 hg hob ha01
    have hA01 : ACTIONS a = some (if a = 0 then ((-1 : ℤ), (0 : ℤ)) else (0, -1)) := by
      rcases ha01 with rfl | rfl <;> rfl
    have hdet := stepE_det (g := g) hst hA01
    rw [h] at hdet
    simp only [Prod.mk.injEq, Except.ok.injEq] at hdet
    obtain ⟨hout2, henv2, -⟩ := hdet
    set dd : ℤ × ℤ := if a = 0 then ((-1 : ℤ), (0 : ℤ)) else (0, -1) with hdd
    have hcond : env.state.1 + dd.1 < 0 ∨ (env.gridsize : ℤ) ≤ env.state.1 + dd.1 ∨
        env.state.2 + dd.2 < 0 ∨ (env.gridsize : ℤ) ≤ env.state.2 + dd.2 := by
      rcases ha01 with rfl | rfl <;> simp [hdd, h00]
    have hstate : env2.state = env.state := by
      rw [henv2, step_apply_state, if_pos hcond]
    have hnotgoal : ¬((step_apply env dd).2.state = env.goal_state) := by
      rw [← henv2, hstate, h00]
      exact fun hh => hg hh.symm
    have hnotmem : ¬((step_apply env dd).2.state ∈ env.obstacle_states) := by
      rw [← henv2, hstate, h00]
      exact hob
    have hr : r = (step_apply env dd).1.2.1 := congrArg (fun t => t.2.1) hout2
    have hb : dn = (step_apply env dd).1.2.2.1 := congrArg (fun t => t.2.2.1) hout2
    have hc : c = (step_apply env dd).1.2.2.2 := congrArg (fun t => t.2.2.2) hout2
    rw [step_apply_reward, if_neg hnotgoal] at hr
    rw [step_apply_done, if_neg hnotgoal] at hb
    rw [step_apply_costs, if_neg hnotgoal, if_neg hnotmem] at hc
    exact ⟨by rw [hstate, h00], hr, hb, hc⟩

/-- C6 witness: on the concrete 3×3 board, a step from (0,0) with action 1
(delta (0,-1)) is absorbed at the boundary: the position stays (0,0) and
the call returns reward -1, done = false, constraint cost [0]. -/
theorem c6_witness :
    ((∃ a2 d, ACTIONS a2 = some d ∧
      ((0 ≤ ({ envT with state := ((0 : ℤ), (0 : ℤ)) } : Env).state.1 + d.1 ∧
        ({ envT with state := ((0 : ℤ), (0 : ℤ)) } : Env).state.1 + d.1 < (3 : ℤ) ∧
        0 ≤ ({ envT with state := ((0 : ℤ), (0 : ℤ)) } : Env).state.2 + d.2 ∧
        ({ envT with state := ((0 : ℤ), (0 : ℤ)) } : Env).state.2 + d.2 < (3 : ℤ)) →
        ({ envT with state := ((0 : ℤ), (0 : ℤ)) } : Env).state =
          (({ envT with state := ((0 : ℤ), (0 : ℤ)) } : Env).state.1 + d.1,
           ({ envT with state := ((0 : ℤ), (0 : ℤ)) } : Env).state.2 + d.2)) ∧
      (¬(0 ≤ ({ envT with state := ((0 : ℤ), (0 : ℤ)) } : Env).state.1 + d.1 ∧
        ({ envT with state := ((0 : ℤ), (0 : ℤ)) } : Env).state.1 + d.1 < (3 : ℤ) ∧
        0 ≤ ({ envT with state := ((0 : ℤ), (0 : ℤ)) } : Env).state.2 + d.2 ∧
        ({ envT with state := ((0 : ℤ), (0 : ℤ)) } : Env).state.2 + d.2 < (3 : ℤ)) →
        ({ envT with state := ((0 : ℤ), (0 : ℤ)) } : Env).state =
          ({ envT with state := ((0 : ℤ), (0 : ℤ)) } : Env).state)) ∧
    (({ envT with state := ((0 : ℤ), (0 : ℤ)) } : Env).stochasticity = 0 →
      ({ envT with state := ((0 : ℤ), (0 : ℤ)) } : Env).state = (0, 0) →
      ({ envT with state := ((0 : ℤ), (0 : ℤ)) } : Env).goal_state ≠ (0, 0) →
      ((0 : ℤ), (0 : ℤ)) ∉ ({ envT with state := ((0 : ℤ), (0 : ℤ)) } : Env).obstacle_states →
      1 = 0 ∨ 1 = 1 →
      ({ envT with state := ((0 : ℤ), (0 : ℤ)) } : Env).state = (0, 0) ∧
        (-1 : ℤ) = -1 ∧ false = false ∧ ([0] : List ℕ) = [0])) :=
  c6_boundary_absorption rngZ { envT with state := (0, 0) } 1
    (Obs.oh [1, 0, 0, 0, 0, 0, 0, 0, 0]) (-1) false [0]
    { envT with state := (0, 0) } ⟨rngZ.stream, 1⟩ rfl

/-- C7 amended: make_game performs no parameter validation and no
InvalidConfiguration error exists.  It succeeds exactly when gridsize ≥ 2
and either gridsize = 2 (no Bernoulli trial runs, so rho is never checked)
or rho ∈ [0,1]; stochasticity is never inspected at configure time.  Every
failure is a ValueError (from randint for gridsize 0, from reshape for
gridsize 1, from the Bernoulli trial for out-of-range rho on gridsize ≥ 3),
never a dedicated configuration error. -/
theorem c7_amended_no_validation (npr : RNG) (n : ℕ) (rho st : ℚ) (bb : Bool) :
    ((make_game npr n rho st bb).isOk = true ↔
      (2 ≤ n ∧ (n = 2 ∨ (0 ≤ rho ∧ rho ≤ 1)))) ∧
    ((make_game npr n rho st bb).isOk = true ∨
      make_game npr n rho st bb = Except.error PyError.valueError) := by
  have hsucc : 2 ≤ n → (n = 2 ∨ (0 ≤ rho ∧ rho ≤ 1)) →
      (make_game npr n rho st bb).isOk = true := by
    intro h2 hcase
    have hok2 : n ≤ 2 ∨ (0 ≤ rho ∧ rho ≤ 1) := by
      rcases hcase with hc | hc
      · exact Or.inl (by omega)
      · exact Or.inr hc
    obtain ⟨flat, r1, hbuild⟩ := build_asci_art_ok (by omega) hok2 npr
    obtain ⟨alpha, midf, halpha, hmlen, hmmem, hflat⟩ :=
      build_asci_art_spec n rho npr flat r1 hbuild
    obtain ⟨m, rfl⟩ : ∃ m, n = m + 2 := ⟨n - 2, by omega⟩
    have hmlen' : midf.length = m * (m + 2) := by
      rw [show m + 2 - 2 = m from by omega] at hmlen
      exact hmlen
    have hlenflat : flat.length = (m + 2) * (m + 2) := by
      rw [hflat]
      simp only [List.length_append, List.length_set, List.length_replicate, hmlen']
      ring
    unfold make_game
    rw [hbuild]
    dsimp only
    unfold reshape2
    rw [if_pos hlenflat]
    dsimp only
    cases hg : argwhere
        ((List.range (m + 2)).map fun i => (flat.drop (i * (m + 2))).take (m + 2)) 'G' with
    | nil =>
      exfalso
      unfold argwhere at hg
      rw [argwhereFrom_eq_nil_iff] at hg
      have hrow0mem : ((flat.drop (0 * (m + 2))).take (m + 2)) ∈
          (List.range (m + 2)).map (fun i => (flat.drop (i * (m + 2))).take (m + 2)) :=
        List.mem_map_of_mem _ (List.mem_range.mpr (by omega))
      have hrow0 : (flat.drop (0 * (m + 2))).take (m + 2) =
          (List.replicate (m + 2) ' ').set alpha 'G' := by
        rw [Nat.zero_mul, List.drop_zero, hflat]
        exact List.take_left' (by simp)
      have hGmem : 'G' ∈ (flat.drop (0 * (m + 2))).take (m + 2) := by
        rw [hrow0]
        exact List.count_pos_iff.mp (by rw [count_set_replicate_G _ _ halpha]; omega)
      exact hg _ hrow0mem hGmem
    | cons p rest => rfl
  have herr : ¬(2 ≤ n ∧ (n = 2 ∨ (0 ≤ rho ∧ rho ≤ 1))) →
      make_game npr n rho st bb = Except.error PyError.valueError := by
    intro hbad
    rcases Nat.lt_or_ge n 2 with hlt | hge
    · interval_cases n
      · exact make_game_of_build_err (build_asci_art_zero rho npr)
      · obtain ⟨flat, r1, hbuild⟩ := @build_asci_art_ok rho 1 (by omega) (Or.inl (by omega)) npr
        obtain ⟨alpha, midf, halpha, hmlen, hmmem, hflat⟩ :=
          build_asci_art_spec 1 rho npr flat r1 hbuild
        have hmlen' : midf.length = 0 := by simpa using hmlen
        have hlenflat : flat.length = 2 := by
          rw [hflat]
          simp [hmlen']
        unfold make_game
        rw [hbuild]
        dsimp only
        unfold reshape2
        rw [if_neg (by rw [hlenflat]; omega)]
    · have h3 : 3 ≤ n := by
        rcases Nat.eq_or_lt_of_le hge with heq | hlt2
        · exact absurd ⟨hge, Or.inl heq.symm⟩ hbad
        · omega
      have hrho : rho < 0 ∨ 1 < rho := by
        by_contra hc
        push_neg at hc
        exact hbad ⟨by omega, Or.inr ⟨hc.1, hc.2⟩⟩
      exact make_game_of_build_err (build_asci_art_err hrho h3 npr)
  constructor
  · constructor
    · intro hok
      by_contra hbad
      rw [herr hbad] at hok
      simp [Except.isOk, Except.toBool] at hok
    · rintro ⟨h2, hc⟩
      exact hsucc h2 hc
  · by_cases hcond : 2 ≤ n ∧ (n = 2 ∨ (0 ≤ rho ∧ rho ≤ 1))
    · exact Or.inl (hsucc hcond.1 hcond.2)
    · exact Or.inr (herr hcond)

/-- C8 amended: when the stochastic override does not fire (here:
stochasticity 0), step with an action outside {0,1,2,3} raises a KeyError
at the ACTIONS lookup — not a dedicated InvalidAction — after the override
trial has already consumed one draw of the global random source; the
environment state is not mutated. -/
theorem c8_amended_keyerror (g : RNG) (env : Env) (a : ℕ)
    (ha : 4 ≤ a) (hst : env.stochasticity = 0) :
    stepE g env a = (Except.error PyError.keyError, env, ⟨g.stream, g.idx + 1⟩) := by
  unfold stepE
  rw [hst, binomial1_zero]
  simp only [ne_eq, not_true_eq_false, ite_false, ACTIONS_none ha]

/-- C8 amended witness: action 7 on the deterministic concrete board. -/
theorem c8_witness :
    stepE rngZ envT 7 = (Except.error PyError.keyError, envT, ⟨rngZ.stream, 1⟩) :=
  c8_amended_keyerror rngZ envT 7 (by decide) rfl

/-- C9: for a current position inside the grid, the one-hot observation is
a vector of length gridsize² whose entries are 0 except a single 1 at index
row*gridsize+col, and the image observation is the cached static image
with exactly the pixel at (row, col) overwritten by the player color red,
regardless of the static pixel beneath it. -/
theorem c9_observation_consistency (env : Env)
    (h1 : 0 ≤ env.state.1) (h2 : env.state.1 < (env.gridsize : ℤ))
    (h3 : 0 ≤ env.state.2) (h4 : env.state.2 < (env.gridsize : ℤ))
    (hlen : env.art_img.length = env.gridsize)
    (hrows : ∀ row ∈ env.art_img, row.length = env.gridsize) :
    (state_to_oh env).length = env.gridsize * env.gridsize ∧
    (∀ k, k < env.gridsize * env.gridsize →
      (state_to_oh env).getD k 0 =
        if k = env.state.1.toNat * env.gridsize + env.state.2.toNat then 1 else 0) ∧
    (state_to_img env).length = env.art_img.length ∧
    (∀ i j, i < env.gridsize → j < env.gridsize →
      ((state_to_img env).getD i []).getD j (0, 0, 0) =
        if i = env.state.1.toNat ∧ j = env.state.2.toNat then ((1 : ℚ), (0 : ℚ), (0 : ℚ))
        else (env.art_img.getD i []).getD j (0, 0, 0)) := by
  have hiN : env.state.1.toNat < env.gridsize := (Int.toNat_lt h1).mpr h2
  have hjN : env.state.2.toNat < env.gridsize := (Int.toNat_lt h3).mpr h4
  have hidx : env.state.1.toNat * env.gridsize + env.state.2.toNat <
      env.gridsize * env.gridsize := by
    calc env.state.1.toNat * env.gridsize + env.state.2.toNat
        < env.state.1.toNat * env.gridsize + env.gridsize := by omega
      _ = (env.state.1.toNat + 1) * env.gridsize := by ring
      _ ≤ env.gridsize * env.gridsize := Nat.mul_le_mul_right _ (by omega)
  refine ⟨?_, ?_, ?_, ?_⟩
  · unfold state_to_oh
    simp
  · intro k hk
    unfold state_to_oh
    by_cases hk2 : k = env.state.1.toNat * env.gridsize + env.state.2.toNat
    · rw [if_pos hk2, hk2]
      exact getD_set_eq _ _ _ _ (by simpa using hidx)
    · rw [if_neg hk2, getD_set_ne _ _ _ (fun hh => hk2 hh.symm),
        getD_replicate _ _ hk]
  · unfold state_to_img set2
    simp
  · intro i j hi hj
    unfold state_to_img set2
    by_cases hii : i = env.state.1.toNat
    · have hrow : ((env.art_img.set env.state.1.toNat
          ((env.art_img.getD env.state.1.toNat []).set env.state.2.toNat
            (FG_COLORS 'P'))).getD i []) =
          (env.art_img.getD env.state.1.toNat []).set env.state.2.toNat (FG_COLORS 'P') := by
        rw [hii]
        exact getD_set_eq _ _ _ _ (by omega)
      rw [hrow]
      have hrowlen : (env.art_img.getD env.state.1.toNat []).length = env.gridsize := by
        apply hrows
        rw [List.getD_eq_getElem?_getD, List.getElem?_eq_getElem (by omega)]
        exact List.getElem_mem _
      by_cases hjj : j = env.state.2.toNat
      · rw [if_pos ⟨hii, hjj⟩, hjj]
        rw [getD_set_eq _ _ _ _ (by omega)]
        rfl
      · rw [if_neg (fun hh => hjj hh.2), getD_set_ne _ _ _ (fun hh => hjj hh.symm), hii]
    · rw [if_neg (fun hh => hii hh.1), getD_set_ne _ _ _ (fun hh => hii hh.symm)]

/-- C9 witness: the concrete 3×3 board with the agent at the start (2,2). -/
theorem c9_witness :
    ((0 : ℤ) ≤ envT.state.1 ∧ envT.state.1 < (envT.gridsize : ℤ) ∧
     (0 : ℤ) ≤ envT.state.2 ∧ envT.state.2 < (envT.gridsize : ℤ) ∧
     envT.art_img.length = envT.gridsize ∧
     (∀ row ∈ envT.art_img, row.length = envT.gridsize)) ∧
    ((state_to_oh envT).length = envT.gridsize * envT.gridsize ∧
     (∀ k, k < envT.gridsize * envT.gridsize →
       (state_to_oh envT).getD k 0 =
         if k = envT.state.1.toNat * envT.gridsize + envT.state.2.toNat then 1 else 0) ∧
     (state_to_img envT).length = envT.art_img.length ∧
     (∀ i j, i < envT.gridsize → j < envT.gridsize →
       ((state_to_img envT).getD i []).getD j (0, 0, 0) =
         if i = envT.state.1.toNat ∧ j = envT.state.2.toNat then ((1 : ℚ), (0 : ℚ), (0 : ℚ))
         else (envT.art_img.getD i []).getD j (0, 0, 0))) :=
  ⟨⟨by decide, by decide, by decide, by decide, by decide, by decide⟩,
   c9_observation_consistency envT (by decide) (by decide) (by decide) (by decide)
     (by decide) (by decide)⟩

/-- C10: the environment keeps no terminal flag: a step from the goal cell
itself (the state after a done = true call) applies the ordinary rules, and
when the effective move is absorbed at the boundary the call returns
reward 1000 and done = true again, with the position still on the goal. -/
theorem c10_step_after_done (g : RNG) (env : Env) (a : ℕ) (d : ℤ × ℤ)
    (hgoal : env.state = env.goal_state) (hst : env.stochasticity = 0)
    (ha : ACTIONS a = some d)
    (hout : env.state.1 + d.1 < 0 ∨ (env.gridsize : ℤ) ≤ env.state.1 + d.1 ∨
            env.state.2 + d.2 < 0 ∨ (env.gridsize : ℤ) ≤ env.state.2 + d.2) :
    ∃ obs, stepE g env a =
      (Except.ok (obs, 1000, true, [0]), env, ⟨g.stream, g.idx + 1⟩) := by
  have hstate : (step_apply env d).2.state = env.state := by
    rw [step_apply_state, if_pos hout]
  have henv : (step_apply env d).2 = env := by
    have hrec : (step_apply env d).2 = { env with state := (step_apply env d).2.state } := rfl
    rw [hrec, hstate]
  have hgs : (step_apply env d).2.state = env.goal_state := by rw [hstate, hgoal]
  have h1 : (step_apply env d).1.2.1 = 1000 := by rw [step_apply_reward, if_pos hgs]
  have h2 : (step_apply env d).1.2.2.1 = true := by rw [step_apply_done, if_pos hgs]
  have h3 : (step_apply env d).1.2.2.2 = [0] := by rw [step_apply_costs, if_pos hgs]
  refine ⟨(step_apply env d).1.1, ?_⟩
  rw [stepE_det hst ha, henv]
  have hfull : (step_apply env d).1 = ((step_apply env d).1.1, 1000, true, [0]) := by
    calc (step_apply env d).1
        = ((step_apply env d).1.1, (step_apply env d).1.2.1,
           (step_apply env d).1.2.2.1, (step_apply env d).1.2.2.2) := rfl
      _ = ((step_apply env d).1.1, 1000, true, [0]) := by rw [h1, h2, h3]
  rw [hfull]

/-- C10 witness: from the goal cell (0,2) of the concrete board, action 0
(delta (-1,0)) is absorbed at the top boundary, and the step call returns
reward 1000 and done = true a second time. -/
theorem c10_witness :
    ∃ obs, stepE rngZ { envT with state := ((0 : ℤ), (2 : ℤ)) } 0 =
      (Except.ok (obs, 1000, true, [0]), { envT with state := ((0 : ℤ), (2 : ℤ)) },
       ⟨rngZ.stream, 1⟩) :=
  c10_step_after_done rngZ { envT with state := (0, 2) } 0 (-1, 0)
    rfl rfl rfl (by decide)

end GymSafety
